import Mathlib

/-!
Verification of the "Nested Reorderable List" component
(repository `v0-drag-and-drop-list-su`, file `src/unnamed/part_000`).

The development shallowly embeds the non-presentation logic of the component:

* the data model (`Item`, `Group`, `DropIndicator`, lines 27-43 of the source);
* the reorder engine `handleDragEnd` (lines 346-453), as a pure function from
  the current `groups` state and a drag-end event to the value of the state
  after the handler runs;
* the drop-indicator logic `handleDragMove` (lines 301-343) together with
  `getItemNumber` (lines 234-238);
* the collapse toggle `handleToggleCollapse` (lines 287-291);
* a heap-level embedding of `handleDragEnd` that tracks JavaScript object
  identity, used to analyse mutation of the handler's input.

JavaScript array operations (`findIndex`, `splice`, indexing, and dnd-kit's
`arrayMove`) are embedded with their exact semantics, including the `-1`
result of a missed `findIndex` and the negative-index normalisation of
`splice`.  A JavaScript execution that dereferences `undefined` (a thrown
`TypeError`), or that would store `undefined` into a typed array of items or
groups, is modelled as `none`.
-/

namespace DnD

/-- `Item` (source lines 28-31). -/
structure Item where
  id : String
  content : String
deriving DecidableEq, Repr

/-- `Group` (source lines 33-38).  The optional field `isCollapsed?: boolean`
is modelled as a `Bool`, identifying `undefined` with `false`: every read of
the field in the source (`!group.isCollapsed`, `group.isCollapsed ? ... : ...`,
`{!group.isCollapsed && ...}`) only uses its truthiness. -/
structure Group where
  id : String
  title : String
  items : List Item
  isCollapsed : Bool
deriving DecidableEq, Repr

/-- `DropIndicator` (source lines 40-43): `itemIndex = none` is the JS
`null`, meaning "end of the group".  The index is an `Int` because the source
computes `overItemNumber - 1`, which is `-1` for an id `item-0`. -/
structure DropIndicator where
  groupId : String
  itemIndex : Option Int
deriving DecidableEq, Repr

/-- The `data.current` payload of the dragged element.  `SortableItem`
registers `{ type: "item", groupId }` (lines 55-62), `SortableGroup` registers
`{ type: "group" }` (lines 141-147); `other` covers any element with a missing
or unrecognised `type` (the `EmptyItem` placeholders carry no drag listeners,
so they can only appear as `over`, not as `active`). -/
inductive ActiveKind where
  | group
  | item (groupId : String)
  | other
deriving DecidableEq, Repr

/-- The `data.current` payload of the hovered (`over`) element:
`SortableItem` registers `{ type: "item", groupId }`, `EmptyItem` registers
`{ type: "empty", groupId }` (lines 104-110), `SortableGroup` registers
`{ type: "group" }`; `other` covers a missing/unrecognised `type` (for it,
`over.data.current?.groupId` is `undefined`). -/
inductive OverKind where
  | group
  | item (groupId : String)
  | empty (groupId : String)
  | other
deriving DecidableEq, Repr

/-- The `over` field of a drag event: the hovered element's id and payload. -/
structure Over where
  id : String
  kind : OverKind
deriving DecidableEq, Repr

/-- A drag event as consumed by `handleDragMove` / `handleDragEnd`: the
dragged element's id and payload, and the hovered element (JS `null` when the
pointer is over no droppable). -/
structure DragEvent where
  activeId : String
  activeKind : ActiveKind
  over : Option Over
deriving DecidableEq, Repr

/-! ### JavaScript array primitives -/

/-- The index of the first element satisfying `p`, if any. -/
def findIdxN (p : α → Bool) : List α → Option Nat
  | [] => none
  | a :: l => if p a then some 0 else (findIdxN p l).map (· + 1)

/-- JS `Array.prototype.findIndex`: the index of the first match, `-1` if
there is none. -/
def findIndexJS (p : α → Bool) (l : List α) : Int :=
  match findIdxN p l with
  | some i => (i : Int)
  | none => -1

/-- JS indexing `arr[i]`: `undefined` (here `none`) for a negative or
out-of-range index. -/
def jsGet (l : List α) (i : Int) : Option α :=
  if i < 0 then none else l[i.toNat]?

/-- The index normalisation of JS `Array.prototype.splice`: a negative start
counts from the end (clamped at `0`), a large start is clamped at the
length. -/
def jsSpliceStart (len : Nat) (start : Int) : Nat :=
  if start < 0 then ((len : Int) + start).toNat else min start.toNat len

/-- JS `arr.splice(start, 1)`: the (at most one) removed element and the
remaining array. -/
def jsSpliceRemove1 (l : List α) (start : Int) : Option α × List α :=
  let s := jsSpliceStart l.length start
  match l[s]? with
  | some x => (some x, l.take s ++ l.drop (s + 1))
  | none => (none, l)

/-- JS `arr.splice(start, 0, x)`: insertion of `x` at the normalised start. -/
def jsSpliceInsert (l : List α) (start : Int) (x : α) : List α :=
  let s := jsSpliceStart l.length start
  l.take s ++ x :: l.drop s

/-- Modelled from the spec: the array-move semantics of §4.1 ("splice out,
then splice in at the new index, using indices computed from the original
positions"), which is the body of dnd-kit's `arrayMove` — a dependency
imported by the source (line 17) and not part of this repository:
`newArray.splice(to < 0 ? newArray.length + to : to, 0, newArray.splice(from, 1)[0])`.
The insertion index is computed against the original length, the inner splice
then removes the element, and the outer splice inserts it into the shortened
array.  When the inner splice removes nothing, JS would insert `undefined`
into the array; that outcome is modelled as `none`. -/
def arrayMove (l : List α) (f t : Int) : Option (List α) :=
  let idx : Int := if t < 0 then (l.length : Int) + t else t
  let r := jsSpliceRemove1 l f
  match r.1 with
  | some x => some (jsSpliceInsert r.2 idx x)
  | none => none

/-! ### The reorder engine (`handleDragEnd`, source lines 346-453)

The handler is embedded as a pure function from the current `groups` value and
the event to the value of the `groups` state after the handler runs.  The
source's `const updatedGroups = [...groups]` followed by mutation of the group
objects is value-equivalent to the sequential `List.set` updates used here
(a separate heap-level embedding below accounts for the object identities).
`none` models a thrown `TypeError` (indexing `updatedGroups[-1].items`) or the
insertion of `undefined` into an item array. -/

/-- The `overGroupId` resolution of the group-drag branch (source line 363):
`overType === "group" ? over.id : over.data.current?.groupId`. -/
def resolvedOverGroupId (ov : Over) : Option String :=
  match ov.kind with
  | .group => some ov.id
  | .item gid => some gid
  | .empty gid => some gid
  | .other => none

/-- The id of the group that receives the dragged item in the item branch of
`handleDragEnd`: the empty-slot's owning group, the hovered group header's
id, or the hovered item's owning group (`none` for an unrecognised target
type, for which the handler does nothing). -/
def itemOverTargetId (ov : Over) : Option String :=
  match ov.kind with
  | .group => some ov.id
  | .item gid => some gid
  | .empty gid => some gid
  | .other => none

/-- The common body of the `overType === "empty"` branch (source lines
380-397) and the `overType === "group"` branch (lines 398-417), which are
textually identical in the source: remove the dragged item from the group
whose id is `activeGroup`, then push it onto the items of the group whose id
is `targetGroupId`.  The target lookup runs after the source splice, so a drop
onto the dragged item's own group (or empty slot) appends to the already
shortened list. -/
def moveItemToGroupEnd (groups : List Group) (activeId activeGroup targetGroupId : String) :
    Option (List Group) :=
  let sourceGroupIndex := findIndexJS (fun g => g.id == activeGroup) groups
  match jsGet groups sourceGroupIndex with
  | none => none
  | some src =>
    let itemIndex := findIndexJS (fun i => i.id == activeId) src.items
    let r := jsSpliceRemove1 src.items itemIndex
    match r.1 with
    | none => none
    | some movedItem =>
      let groups1 := groups.set sourceGroupIndex.toNat { src with items := r.2 }
      let targetGroupIndex := findIndexJS (fun g => g.id == targetGroupId) groups1
      match jsGet groups1 targetGroupIndex with
      | none => none
      | some tgt =>
        some (groups1.set targetGroupIndex.toNat
          { tgt with items := tgt.items ++ [movedItem] })

/-- `handleDragEnd` (source lines 346-453), restricted to its effect on the
`groups` state (the handler also clears `activeId`, `activeData` and the drop
indicator, which are transient UI state outside the model). -/
def handleDragEnd (groups : List Group) (ev : DragEvent) : Option (List Group) :=
  match ev.over with
  | none => some groups
  | some over =>
    match ev.activeKind with
    | .group =>
      if ev.activeId != over.id then
        match resolvedOverGroupId over with
        | some overGroupId =>
          -- JS truthiness of `if (overGroupId)`: the empty string is falsy.
          if overGroupId = "" then some groups
          else
            let oldIndex := findIndexJS (fun g => g.id == ev.activeId) groups
            let newIndex := findIndexJS (fun g =>
              match over.kind with
              | .group => g.id == over.id
              | _ => g.id == overGroupId) groups
            arrayMove groups oldIndex newIndex
        | none => some groups
      else some groups
    | .item activeGroup =>
      match over.kind with
      | .empty targetGroupId =>
        moveItemToGroupEnd groups ev.activeId activeGroup targetGroupId
      | .group =>
        moveItemToGroupEnd groups ev.activeId activeGroup over.id
      | .item overGroup =>
        if ev.activeId != over.id then
          if activeGroup == overGroup then
            let groupIndex := findIndexJS (fun g => g.id == activeGroup) groups
            match jsGet groups groupIndex with
            | none => none
            | some g =>
              let oldIndex := findIndexJS (fun i => i.id == ev.activeId) g.items
              let newIndex := findIndexJS (fun i => i.id == over.id) g.items
              match arrayMove g.items oldIndex newIndex with
              | none => none
              | some newItems =>
                some (groups.set groupIndex.toNat { g with items := newItems })
          else
            let sourceGroupIndex := findIndexJS (fun g => g.id == activeGroup) groups
            match jsGet groups sourceGroupIndex with
            | none => none
            | some src =>
              let itemIndex := findIndexJS (fun i => i.id == ev.activeId) src.items
              let r := jsSpliceRemove1 src.items itemIndex
              match r.1 with
              | none => none
              | some movedItem =>
                let groups1 := groups.set sourceGroupIndex.toNat { src with items := r.2 }
                let targetGroupIndex := findIndexJS (fun g => g.id == overGroup) groups1
                match jsGet groups1 targetGroupIndex with
                | none => none
                | some tgt =>
                  let targetIndex := findIndexJS (fun i => i.id == over.id) tgt.items
                  some (groups1.set targetGroupIndex.toNat
                    { tgt with items := jsSpliceInsert tgt.items targetIndex movedItem })
        else some groups
      | .other => some groups
    | .other => some groups

/-- Iterated drag-end handling: the state threaded through a sequence of
drag-end events (a gesture sequence), stopping at the first failure. -/
def handleDragEnds (groups : List Group) (evs : List DragEvent) : Option (List Group) :=
  match evs with
  | [] => some groups
  | ev :: rest =>
    match handleDragEnd groups ev with
    | none => none
    | some groups2 => handleDragEnds groups2 rest

/-- `handleToggleCollapse` (source lines 287-291). -/
def handleToggleCollapse (groups : List Group) (groupId : String) : List Group :=
  groups.map fun g =>
    if g.id == groupId then { g with isCollapsed := !g.isCollapsed } else g

/-! ### Drop-indicator logic (`getItemNumber`, `handleDragMove`) -/

/-- The value of a nonempty digit string, as computed by
`Number.parseInt(·, 10)` (exact for the id lengths arising here). -/
def digitsToNat (ds : List Char) : Nat :=
  ds.foldl (fun a c => 10 * a + (c.toNat - 48)) 0

/-- Left-to-right scan of `itemId.match(/item-(\d+)/)`: at each position, try
to match the literal `item-` followed by at least one digit (taken greedily),
otherwise advance one character. -/
def itemNumAux : List Char → Option Nat
  | [] => none
  | c :: cs =>
    match c, cs with
    | 'i', 't' :: 'e' :: 'm' :: '-' :: tail =>
      let ds := tail.takeWhile Char.isDigit
      if ds.isEmpty then itemNumAux cs else some (digitsToNat ds)
    | _, _ => itemNumAux cs

/-- `getItemNumber` (source lines 234-238): extract the number from the first
occurrence of `item-<digits>` in the id, `null` (`none`) if there is none. -/
def getItemNumber (itemId : String) : Option Nat :=
  itemNumAux itemId.data

/-- `handleDragMove` (source lines 301-343) as a transformer of the
`dropIndicator` state: the branches that call `setDropIndicator` replace the
state, the fall-through branches (an `item` target whose id has no
`item-<digits>` part, or an unrecognised target type) leave it unchanged. -/
def handleDragMove (prev : Option DropIndicator) (ev : DragEvent) :
    Option DropIndicator :=
  match ev.over with
  | none => none
  | some over =>
    match ev.activeKind with
    | .item _ =>
      match over.kind with
      | .empty gid => some ⟨gid, none⟩
      | .group => some ⟨over.id, some 0⟩
      | .item gid =>
        match getItemNumber over.id with
        | some n => some ⟨gid, some ((n : Int) - 1)⟩
        | none => prev
      | .other => prev
    | _ => none

/-! ### Spec-side list operations

`removeAt`/`insertAt` state the spec's remove/insert wording (§4.1) directly;
the theorems below relate the engine to them. -/

/-- Removal of the element at index `i` (spec §4.1: "remove the Item from the
source group's sequence"). -/
def removeAt (l : List α) (i : Nat) : List α :=
  l.take i ++ l.drop (i + 1)

/-- Insertion at index `i` (spec §4.1: "insert it into the target group's
sequence at the index currently occupied by the target Item"). -/
def insertAt (l : List α) (i : Nat) (x : α) : List α :=
  l.take i ++ x :: l.drop i

/-- The skeleton of a group: everything except its items (id, title,
collapsed flag). -/
def skel (g : Group) : String × String × Bool :=
  (g.id, g.title, g.isCollapsed)

/-- The ids of a list of items, as a multiset. -/
def idsM (l : List Item) : Multiset String :=
  (l.map Item.id : List String)

/-- All item ids of the model, in display order. -/
def itemIdList (groups : List Group) : List String :=
  (groups.map fun g => g.items.map Item.id).flatten

/-- All item ids of the model, as a multiset. -/
def itemIds (groups : List Group) : Multiset String :=
  (itemIdList groups : List String)

/-! ### Heap-level embedding of `handleDragEnd`

The source's `setGroups` updaters build `const updatedGroups = [...groups]`, a
shallow copy: the group objects (and their `items` arrays) are shared with the
input.  To reason about mutation of the input, this embedding makes object
identity explicit: the React state is a list of references to group objects,
group objects hold a reference to their items array, and both live in an
explicit heap.  `items.splice(...)`/`items.push(...)` update the items array
in place; `updatedGroups[i].items = arrayMove(...)` allocates a fresh array
and reassigns the field of the (shared) group object. -/

/-- A JS group object: its scalar fields and a reference (index into
`Heap.arrs`) to its items array. -/
structure GroupObj where
  id : String
  title : String
  itemsRef : Nat
  isCollapsed : Bool
deriving DecidableEq, Repr

/-- The heap: group objects addressed by index, items arrays addressed by
index. -/
structure Heap where
  objs : List GroupObj
  arrs : List (List Item)
deriving DecidableEq, Repr

/-- Read one group reference as a `Group` value. -/
def readGroup (h : Heap) (r : Nat) : Option Group :=
  match h.objs[r]? with
  | none => none
  | some o =>
    match h.arrs[o.itemsRef]? with
    | none => none
    | some l => some ⟨o.id, o.title, l, o.isCollapsed⟩

/-- Read a state (a list of group references) as a model value. -/
def readModel (h : Heap) (refs : List Nat) : Option (List Group) :=
  refs.mapM (readGroup h)

/-- The predicate `g => g.id === gid` applied through a group reference. -/
def refIdIs (h : Heap) (gid : String) (r : Nat) : Bool :=
  match h.objs[r]? with
  | some o => o.id == gid
  | none => false

/-- Heap-level body of the `empty`/`group` target branches of an item drag
(source lines 380-417): splice the dragged item out of the source group's
items array (an in-place mutation of the shared array object), then push it
onto the target group's items array.  The result is the heap after the
handler together with the returned state (`none` when the JS throws before
returning, in which case the mutations already performed persist). -/
def moveItemToGroupEndH (h : Heap) (refs : List Nat)
    (activeId activeGroup targetGroupId : String) : Heap × Option (List Nat) :=
  let sourceGroupIndex := findIndexJS (refIdIs h activeGroup) refs
  match jsGet refs sourceGroupIndex with
  | none => (h, none)
  | some rs =>
    match h.objs[rs]? with
    | none => (h, none)
    | some so =>
      match h.arrs[so.itemsRef]? with
      | none => (h, none)
      | some sitems =>
        let itemIndex := findIndexJS (fun i => i.id == activeId) sitems
        let r := jsSpliceRemove1 sitems itemIndex
        let h1 : Heap := { h with arrs := h.arrs.set so.itemsRef r.2 }
        match r.1 with
        | none => (h1, none)
        | some movedItem =>
          let targetGroupIndex := findIndexJS (refIdIs h1 targetGroupId) refs
          match jsGet refs targetGroupIndex with
          | none => (h1, none)
          | some rt =>
            match h1.objs[rt]? with
            | none => (h1, none)
            | some to2 =>
              match h1.arrs[to2.itemsRef]? with
              | none => (h1, none)
              | some titems =>
                ({ h1 with arrs := h1.arrs.set to2.itemsRef (titems ++ [movedItem]) },
                 some refs)

/-- Heap-level `handleDragEnd` (source lines 346-453): the heap after the
handler runs, and the state value it returns (`none` models a thrown
`TypeError` or the insertion of `undefined`; the heap mutations performed up
to that point persist). -/
def handleDragEndH (h : Heap) (refs : List Nat) (ev : DragEvent) :
    Heap × Option (List Nat) :=
  match ev.over with
  | none => (h, some refs)
  | some over =>
    match ev.activeKind with
    | .group =>
      if ev.activeId != over.id then
        match resolvedOverGroupId over with
        | some overGroupId =>
          if overGroupId = "" then (h, some refs)
          else
            let oldIndex := findIndexJS (refIdIs h ev.activeId) refs
            let newIndex := findIndexJS (fun r =>
              match over.kind with
              | .group => refIdIs h over.id r
              | _ => refIdIs h overGroupId r) refs
            match arrayMove refs oldIndex newIndex with
            | some refs2 => (h, some refs2)
            | none => (h, none)
        | none => (h, some refs)
      else (h, some refs)
    | .item activeGroup =>
      match over.kind with
      | .empty targetGroupId =>
        moveItemToGroupEndH h refs ev.activeId activeGroup targetGroupId
      | .group =>
        moveItemToGroupEndH h refs ev.activeId activeGroup over.id
      | .item overGroup =>
        if ev.activeId != over.id then
          if activeGroup == overGroup then
            let groupIndex := findIndexJS (refIdIs h activeGroup) refs
            match jsGet refs groupIndex with
            | none => (h, none)
            | some rg =>
              match h.objs[rg]? with
              | none => (h, none)
              | some o =>
                match h.arrs[o.itemsRef]? with
                | none => (h, none)
                | some items =>
                  let oldIndex := findIndexJS (fun i => i.id == ev.activeId) items
                  let newIndex := findIndexJS (fun i => i.id == over.id) items
                  match arrayMove items oldIndex newIndex with
                  | none => (h, none)
                  | some newItems =>
                    -- `updatedGroups[groupIndex].items = arrayMove(...)`:
                    -- a fresh array object is stored into the shared group
                    -- object.
                    ({ objs := h.objs.set rg { o with itemsRef := h.arrs.length },
                       arrs := h.arrs ++ [newItems] },
                     some refs)
          else
            let sourceGroupIndex := findIndexJS (refIdIs h activeGroup) refs
            match jsGet refs sourceGroupIndex with
            | none => (h, none)
            | some rs =>
              match h.objs[rs]? with
              | none => (h, none)
              | some so =>
                match h.arrs[so.itemsRef]? with
                | none => (h, none)
                | some sitems =>
                  let itemIndex := findIndexJS (fun i => i.id == ev.activeId) sitems
                  let r := jsSpliceRemove1 sitems itemIndex
                  let h1 : Heap := { h with arrs := h.arrs.set so.itemsRef r.2 }
                  match r.1 with
                  | none => (h1, none)
                  | some movedItem =>
                    let targetGroupIndex := findIndexJS (refIdIs h1 overGroup) refs
                    match jsGet refs targetGroupIndex with
                    | none => (h1, none)
                    | some rt =>
                      match h1.objs[rt]? with
                      | none => (h1, none)
                      | some to2 =>
                        match h1.arrs[to2.itemsRef]? with
                        | none => (h1, none)
                        | some titems =>
                          let targetIndex := findIndexJS (fun i => i.id == over.id) titems
                          let newTitems := jsSpliceInsert titems targetIndex movedItem
                          ({ h1 with arrs := h1.arrs.set to2.itemsRef newTitems }, some refs)
        else (h, some refs)
      | .other => (h, some refs)
    | .other => (h, some refs)

/-! ### Concrete data for witnesses and counterexamples -/

/-- The seed model of the component (source lines 242-268). -/
def seedGroups : List Group :=
  [ ⟨"group-1", "To Do",
      [⟨"item-1", "Research project requirements"⟩,
       ⟨"item-2", "Create project plan"⟩,
       ⟨"item-3", "Set up development environment"⟩], false⟩,
    ⟨"group-2", "In Progress",
      [⟨"item-4", "Implement core features"⟩,
       ⟨"item-5", "Design user interface"⟩], false⟩,
    ⟨"group-3", "Completed",
      [⟨"item-6", "Project kickoff meeting"⟩,
       ⟨"item-7", "Requirements gathering"⟩], false⟩ ]

/-- A two-group model for the C1 counterexample. -/
def modelC1 : List Group :=
  [⟨"g1", "G1", [⟨"i1", "A"⟩, ⟨"i2", "B"⟩], false⟩,
   ⟨"g2", "G2", [⟨"i3", "C"⟩], false⟩]

/-- A drag-end event whose `over` id (`item-99`) resolves to nothing in
`modelC1`, yet whose metadata claims it is an item of `g1`. -/
def evC1 : DragEvent :=
  ⟨"i1", .item "g1", some ⟨"item-99", .item "g1"⟩⟩

/-- A drag-end event whose `active` metadata names a group id that resolves
to nothing (`g-missing`). -/
def evC1throw : DragEvent :=
  ⟨"i1", .item "g-missing", some ⟨"item-99", .item "g-missing"⟩⟩

/-- The heap of the C2 failing input: two group objects `g1` (items `a`, `b`)
and `g2` (items `x`, `y`). -/
def heapC2 : Heap :=
  { objs := [⟨"g1", "G1", 0, false⟩, ⟨"g2", "G2", 1, false⟩],
    arrs := [[⟨"a", "A"⟩, ⟨"b", "B"⟩], [⟨"x", "X"⟩, ⟨"y", "Y"⟩]] }

/-- The state of the C2 failing input: references to the two group objects. -/
def refsC2 : List Nat := [0, 1]

/-- The C2 failing event: drag item `b` (of `g1`) and drop it onto item `y`
(of `g2`), a cross-group item move. -/
def evC2 : DragEvent :=
  ⟨"b", .item "g1", some ⟨"y", .item "g2"⟩⟩

/-- A cross-group drag-end event on the `heapC2` model whose target-group
metadata (`g-gone`) resolves to nothing: the source splice happens in place,
then the target lookup misses and the handler throws. -/
def evC3x : DragEvent :=
  ⟨"b", .item "g1", some ⟨"y", .item "g-gone"⟩⟩

/-- The C4 example model (spec §8): source group `gs` with items `A`, `B`,
target group `gt` with items `X`, `Y`. -/
def modelC4 : List Group :=
  [⟨"gs", "Source", [⟨"a", "A"⟩, ⟨"b", "B"⟩], false⟩,
   ⟨"gt", "Target", [⟨"x", "X"⟩, ⟨"y", "Y"⟩], false⟩]

/-- The C4 example event: move item `b` onto item `y`. -/
def evC4 : DragEvent :=
  ⟨"b", .item "gs", some ⟨"y", .item "gt"⟩⟩

/-- The C5 example model (spec §8): one group with items `A`, `B`, `C`, `D`. -/
def modelC5 : List Group :=
  [⟨"g1", "G1", [⟨"a", "A"⟩, ⟨"b", "B"⟩, ⟨"c", "C"⟩, ⟨"d", "D"⟩], false⟩]

/-- The C5 example event: move item `d` onto item `b` (within `g1`). -/
def evC5 : DragEvent :=
  ⟨"d", .item "g1", some ⟨"b", .item "g1"⟩⟩

/-- The C6 example event on `seedGroups`: drag `group-3` onto the header of
`group-1`. -/
def evC6 : DragEvent :=
  ⟨"group-3", .group, some ⟨"group-1", .group⟩⟩

/-- The C7 example model (spec §8): a non-empty source group and an empty
target group. -/
def modelC7 : List Group :=
  [⟨"gs", "Source", [⟨"a", "A"⟩, ⟨"b", "B"⟩], false⟩,
   ⟨"gt", "Target", [], false⟩]

/-- The C7 example event: drop item `a` onto the empty-slot placeholder of
`gt` (the placeholder's sortable id is `empty-gt`, source line 105). -/
def evC7 : DragEvent :=
  ⟨"a", .item "gs", some ⟨"empty-gt", .empty "gt"⟩⟩

/-- The C8 counterexample event on `seedGroups`: drag `item-1` and hover
`item-4`, the first item of `group-2`. -/
def evC8 : DragEvent :=
  ⟨"item-1", .item "group-1", some ⟨"item-4", .item "group-2"⟩⟩

/-- The second group of the seed model. -/
def seedG2 : Group :=
  ⟨"group-2", "In Progress",
    [⟨"item-4", "Implement core features"⟩,
     ⟨"item-5", "Design user interface"⟩], false⟩

/-- The third group of the seed model. -/
def seedG3 : Group :=
  ⟨"group-3", "Completed",
    [⟨"item-6", "Project kickoff meeting"⟩,
     ⟨"item-7", "Requirements gathering"⟩], false⟩

/-- A second event for the C3 witness sequence: move `b` (now in `gt`) onto
`x` within `gt`. -/
def evC3b : DragEvent :=
  ⟨"b", .item "gt", some ⟨"x", .item "gt"⟩⟩

/-- The state after running `evC4` then `evC3b` on `modelC4`. -/
def resultC3 : List Group :=
  [⟨"gs", "Source", [⟨"a", "A"⟩], false⟩,
   ⟨"gt", "Target", [⟨"b", "B"⟩, ⟨"x", "X"⟩, ⟨"y", "Y"⟩], false⟩]

/-- The state after running `evC4` on `modelC4`. -/
def resultC4 : List Group :=
  [⟨"gs", "Source", [⟨"a", "A"⟩], false⟩,
   ⟨"gt", "Target", [⟨"x", "X"⟩, ⟨"b", "B"⟩, ⟨"y", "Y"⟩], false⟩]

/-- The state after running `evC5` on `modelC5`. -/
def resultC5 : List Group :=
  [⟨"g1", "G1", [⟨"a", "A"⟩, ⟨"d", "D"⟩, ⟨"b", "B"⟩, ⟨"c", "C"⟩], false⟩]

/-- The state after running `evC6` on `seedGroups`: `group-3` moved in front
of `group-1`. -/
def resultC6 : List Group :=
  [ ⟨"group-3", "Completed",
      [⟨"item-6", "Project kickoff meeting"⟩,
       ⟨"item-7", "Requirements gathering"⟩], false⟩,
    ⟨"group-1", "To Do",
      [⟨"item-1", "Research project requirements"⟩,
       ⟨"item-2", "Create project plan"⟩,
       ⟨"item-3", "Set up development environment"⟩], false⟩,
    ⟨"group-2", "In Progress",
      [⟨"item-4", "Implement core features"⟩,
       ⟨"item-5", "Design user interface"⟩], false⟩ ]

/-- The state after running `evC7` on `modelC7`. -/
def resultC7 : List Group :=
  [⟨"gs", "Source", [⟨"b", "B"⟩], false⟩,
   ⟨"gt", "Target", [⟨"a", "A"⟩], false⟩]

/-! ### Basic lemmas about the JavaScript primitives -/

theorem findIdxN_lt_length {p : α → Bool} {l : List α} {i : Nat}
    (h : findIdxN p l = some i) : i < l.length := by
  induction l generalizing i with
  | nil => simp [findIdxN] at h
  | cons a tl ih =>
    rw [findIdxN] at h
    split at h
    · cases h
      simp
    · obtain ⟨j, hj, rfl⟩ := Option.map_eq_some'.mp h
      have := ih hj
      simp
      omega

theorem findIdxN_found {p : α → Bool} {l : List α} {i : Nat}
    (h : findIdxN p l = some i) : ∃ x, l[i]? = some x ∧ p x = true := by
  induction l generalizing i with
  | nil => simp [findIdxN] at h
  | cons a tl ih =>
    rw [findIdxN] at h
    split at h
    next hp =>
      cases h
      exact ⟨a, by simp, hp⟩
    next =>
      obtain ⟨j, hj, rfl⟩ := Option.map_eq_some'.mp h
      obtain ⟨x, hx, hpx⟩ := ih hj
      exact ⟨x, by simpa using hx, hpx⟩

theorem findIndexJS_of_some {p : α → Bool} {l : List α} {i : Nat}
    (h : findIdxN p l = some i) : findIndexJS p l = (i : Int) := by
  simp [findIndexJS, h]

theorem jsGet_nat (l : List α) (i : Nat) : jsGet l (i : Int) = l[i]? := by
  simp [jsGet]

theorem jsGet_findIndexJS {p : α → Bool} {l : List α} {x : α}
    (h : jsGet l (findIndexJS p l) = some x) :
    ∃ i, findIdxN p l = some i ∧ l[i]? = some x := by
  cases hf : findIdxN p l with
  | none => rw [findIndexJS, hf] at h; simp [jsGet] at h
  | some i =>
    refine ⟨i, rfl, ?_⟩
    rw [findIndexJS_of_some hf, jsGet_nat] at h
    exact h

theorem drop_eq_cons_of_getElem? {l : List α} {n : Nat} {x : α}
    (h : l[n]? = some x) : l.drop n = x :: l.drop (n + 1) := by
  obtain ⟨hn, hx⟩ := List.getElem?_eq_some.mp h
  rw [List.drop_eq_getElem_cons hn, hx]

theorem coe_eq_cons_removeAt {l : List α} {s : Nat} {x : α}
    (h : l[s]? = some x) :
    (l : Multiset α) = x ::ₘ ((l.take s ++ l.drop (s + 1) : List α) : Multiset α) := by
  rw [Multiset.cons_coe, Multiset.coe_eq_coe]
  have hl : l = l.take s ++ x :: l.drop (s + 1) := by
    conv_lhs => rw [← List.take_append_drop s l, drop_eq_cons_of_getElem? h]
  conv_lhs => rw [hl]
  exact List.perm_middle

theorem spliceRemove_coe {l : List α} {st : Int} {x : α}
    (h : (jsSpliceRemove1 l st).1 = some x) :
    (l : Multiset α) = x ::ₘ (((jsSpliceRemove1 l st).2 : List α) : Multiset α) := by
  rw [jsSpliceRemove1] at h ⊢
  cases hg : l[jsSpliceStart l.length st]? with
  | none =>
    rw [hg] at h
    exact Option.noConfusion h
  | some y =>
    rw [hg] at h
    have hxy : y = x := by injection h
    subst hxy
    exact coe_eq_cons_removeAt hg

theorem spliceInsert_coe (l : List α) (st : Int) (x : α) :
    ((jsSpliceInsert l st x : List α) : Multiset α) = x ::ₘ (l : Multiset α) := by
  rw [jsSpliceInsert, Multiset.cons_coe, Multiset.coe_eq_coe]
  have h : List.Perm
      (l.take (jsSpliceStart l.length st) ++ x :: l.drop (jsSpliceStart l.length st))
      (x :: (l.take (jsSpliceStart l.length st) ++ l.drop (jsSpliceStart l.length st))) :=
    List.perm_middle
  rw [List.take_append_drop] at h
  exact h

theorem arrayMove_coe {l l' : List α} {f t : Int}
    (h : arrayMove l f t = some l') : (l' : Multiset α) = (l : Multiset α) := by
  rw [arrayMove] at h
  cases hr : (jsSpliceRemove1 l f).1 with
  | none => rw [hr] at h; simp at h
  | some x =>
    rw [hr] at h
    simp only [Option.some.injEq] at h
    subst h
    rw [spliceInsert_coe, spliceRemove_coe hr]

theorem removeAt_length {l : List α} {i : Nat} (h : i < l.length) :
    (removeAt l i).length = l.length - 1 := by
  simp [removeAt]
  omega

theorem jsSpliceStart_nat {len i : Nat} (h : i ≤ len) :
    jsSpliceStart len (i : Int) = i := by
  rw [jsSpliceStart, if_neg (by omega)]
  rw [Int.toNat_natCast]
  omega

theorem spliceRemove_nat {l : List α} {i : Nat} {x : α} (h : l[i]? = some x) :
    jsSpliceRemove1 l (i : Int) = (some x, removeAt l i) := by
  have hi : i < l.length := (List.getElem?_eq_some.mp h).1
  rw [jsSpliceRemove1, jsSpliceStart_nat (by omega), h, removeAt]

theorem spliceInsert_nat {l : List α} {i : Nat} (hi : i ≤ l.length) (x : α) :
    jsSpliceInsert l (i : Int) x = insertAt l i x := by
  rw [jsSpliceInsert, jsSpliceStart_nat hi, insertAt]

theorem arrayMove_nat {l : List α} {oi ni : Nat} {x : α}
    (hx : l[oi]? = some x) (hni : ni < l.length) :
    arrayMove l (oi : Int) (ni : Int) = some (insertAt (removeAt l oi) ni x) := by
  have hoi : oi < l.length := (List.getElem?_eq_some.mp hx).1
  have hrem := spliceRemove_nat hx
  rw [arrayMove, hrem]
  simp only
  have hidx : (if (ni : Int) < 0 then (l.length : Int) + ni else (ni : Int)) = (ni : Int) := by
    simp
  rw [hidx, spliceInsert_nat (by rw [removeAt_length hoi]; omega) x]

/-! ### Lemmas about item-id multisets and group skeletons -/

theorem itemIds_nil : itemIds [] = 0 := rfl

theorem itemIds_cons (g : Group) (gs : List Group) :
    itemIds (g :: gs) = idsM g.items + itemIds gs := by
  simp [itemIds, itemIdList, idsM, ← Multiset.coe_add]

theorem itemIds_set {gs : List Group} {i : Nat} {g : Group}
    (h : gs[i]? = some g) (g' : Group) :
    itemIds (gs.set i g') + idsM g.items = itemIds gs + idsM g'.items := by
  induction gs generalizing i with
  | nil => simp at h
  | cons a tl ih =>
    cases i with
    | zero =>
      simp only [List.getElem?_cons_zero, Option.some.injEq] at h
      subst h
      simp only [List.set_cons_zero, itemIds_cons]
      abel
    | succ j =>
      simp only [List.getElem?_cons_succ] at h
      simp only [List.set_cons_succ, itemIds_cons]
      rw [add_assoc, add_assoc, ih h]

theorem map_skel_set {gs : List Group} {i : Nat} {g : Group}
    (h : gs[i]? = some g) (l' : List Item) :
    (gs.set i { g with items := l' }).map skel = gs.map skel := by
  induction gs generalizing i with
  | nil => simp at h
  | cons a tl ih =>
    cases i with
    | zero =>
      simp only [List.getElem?_cons_zero, Option.some.injEq] at h
      subst h
      simp [skel]
    | succ j =>
      simp only [List.getElem?_cons_succ] at h
      simp [ih h]

theorem itemIds_perm {gs gs' : List Group} (hp : gs'.Perm gs) :
    itemIds gs' = itemIds gs := by
  induction hp with
  | nil => rfl
  | cons x _ ih => simp [itemIds_cons, ih]
  | swap x y l =>
    simp only [itemIds_cons]
    abel
  | trans _ _ ih1 ih2 => rw [ih1, ih2]

theorem itemIds_coe_eq {gs gs' : List Group}
    (h : (gs' : Multiset Group) = (gs : Multiset Group)) :
    itemIds gs' = itemIds gs :=
  itemIds_perm (Multiset.coe_eq_coe.mp h)

theorem idsM_eq_of_coe {l r : List Item}
    (h : (l : Multiset Item) = (r : Multiset Item)) : idsM l = idsM r := by
  have := congrArg (Multiset.map Item.id) h
  simpa [idsM, Multiset.map_coe] using this

theorem idsM_cons_of_coe {l r : List Item} {x : Item}
    (h : (l : Multiset Item) = x ::ₘ (r : Multiset Item)) :
    idsM l = x.id ::ₘ idsM r := by
  have := congrArg (Multiset.map Item.id) h
  simpa [idsM, Multiset.map_coe, Multiset.map_cons] using this

theorem coe_append_single (l : List Item) (x : Item) :
    ((l ++ [x] : List Item) : Multiset Item) = x ::ₘ (l : Multiset Item) := by
  rw [← Multiset.coe_add, Multiset.coe_singleton, add_comm, Multiset.singleton_add]

/-! ### Characterisation of the item branch of `handleDragEnd`

Every successful run of the item branch either leaves the state unchanged,
or permutes the items of the dragged item's group in place, or removes one
item from the dragged item's group and adds the same item to the resolved
target group.  The lemma records the indices and id facts needed by the
conservation and frame theorems below. -/

theorem moveItemToGroupEnd_eq {gs m' : List Group} {a s t : String}
    (h : moveItemToGroupEnd gs a s t = some m') :
    ∃ (si : Nat) (src : Group) (x : Item) (rest : List Item) (ti : Nat) (tgt : Group),
      findIdxN (fun g => g.id == s) gs = some si ∧
      gs[si]? = some src ∧
      (src.items : Multiset Item) = x ::ₘ (rest : Multiset Item) ∧
      findIdxN (fun g => g.id == t) (gs.set si { src with items := rest }) = some ti ∧
      (gs.set si { src with items := rest })[ti]? = some tgt ∧
      m' = (gs.set si { src with items := rest }).set ti
        { tgt with items := tgt.items ++ [x] } := by
  rw [moveItemToGroupEnd] at h
  cases hsg : jsGet gs (findIndexJS (fun g => g.id == s) gs) with
  | none =>
    rw [hsg] at h
    exact Option.noConfusion h
  | some src =>
    rw [hsg] at h
    obtain ⟨si, hfi, hsrc⟩ := jsGet_findIndexJS hsg
    rw [findIndexJS_of_some hfi] at h
    simp only [Int.toNat_natCast] at h
    cases hr : (jsSpliceRemove1 src.items
        (findIndexJS (fun i => i.id == a) src.items)).1 with
    | none =>
      rw [hr] at h
      exact Option.noConfusion h
    | some x =>
      rw [hr] at h
      have hms := spliceRemove_coe hr
      cases htg : jsGet (gs.set si { src with
          items := (jsSpliceRemove1 src.items
            (findIndexJS (fun i => i.id == a) src.items)).2 })
          (findIndexJS (fun g => g.id == t) (gs.set si { src with
            items := (jsSpliceRemove1 src.items
              (findIndexJS (fun i => i.id == a) src.items)).2 })) with
      | none =>
        rw [htg] at h
        exact Option.noConfusion h
      | some tgt =>
        rw [htg] at h
        obtain ⟨ti, hti, htgt⟩ := jsGet_findIndexJS htg
        rw [findIndexJS_of_some hti] at h
        simp only [Int.toNat_natCast] at h
        have hm : m' = _ := (Option.some.injEq _ _ ▸ h).symm
        exact ⟨si, src, x, _, ti, tgt, hfi, hsrc, hms, hti, htgt, hm⟩

set_option maxHeartbeats 1600000 in
theorem handleDragEnd_item_shape {gs m' : List Group} {aid agid : String} {ov : Over}
    (h : handleDragEnd gs ⟨aid, .item agid, some ov⟩ = some m') :
    m' = gs ∨
    (∃ (gi : Nat) (g : Group) (newItems : List Item),
       findIdxN (fun g2 => g2.id == agid) gs = some gi ∧
       gs[gi]? = some g ∧
       (newItems : Multiset Item) = (g.items : Multiset Item) ∧
       m' = gs.set gi { g with items := newItems }) ∨
    (∃ (tid : String), itemOverTargetId ov = some tid ∧
     ∃ (si : Nat) (src : Group) (x : Item) (rest : List Item) (ti : Nat) (tgt : Group)
       (newTgtItems : List Item),
       findIdxN (fun g2 => g2.id == agid) gs = some si ∧
       gs[si]? = some src ∧
       (src.items : Multiset Item) = x ::ₘ (rest : Multiset Item) ∧
       findIdxN (fun g2 => g2.id == tid) (gs.set si { src with items := rest }) = some ti ∧
       (gs.set si { src with items := rest })[ti]? = some tgt ∧
       (newTgtItems : Multiset Item) = x ::ₘ (tgt.items : Multiset Item) ∧
       m' = (gs.set si { src with items := rest }).set ti
         { tgt with items := newTgtItems }) := by
  obtain ⟨oid, okind⟩ := ov
  cases okind with
  | empty tgid =>
    simp only [handleDragEnd] at h
    obtain ⟨si, src, x, rest, ti, tgt, h1, h2, h3, h4, h5, h6⟩ := moveItemToGroupEnd_eq h
    refine Or.inr (Or.inr ⟨tgid, rfl, si, src, x, rest, ti, tgt, tgt.items ++ [x],
      h1, h2, h3, h4, h5, coe_append_single tgt.items x, h6⟩)
  | group =>
    simp only [handleDragEnd] at h
    obtain ⟨si, src, x, rest, ti, tgt, h1, h2, h3, h4, h5, h6⟩ := moveItemToGroupEnd_eq h
    refine Or.inr (Or.inr ⟨oid, rfl, si, src, x, rest, ti, tgt, tgt.items ++ [x],
      h1, h2, h3, h4, h5, coe_append_single tgt.items x, h6⟩)
  | other =>
    simp only [handleDragEnd] at h
    exact Or.inl (by injection h with h2; exact h2.symm)
  | item ogid =>
    simp only [handleDragEnd] at h
    split at h
    · split at h
      · -- same owning group: an in-place arrayMove of that group's items
        cases hjg : jsGet gs (findIndexJS (fun g => g.id == agid) gs) with
        | none =>
          rw [hjg] at h
          exact Option.noConfusion h
        | some g =>
          rw [hjg] at h
          obtain ⟨gi, hfi, hg⟩ := jsGet_findIndexJS hjg
          rw [findIndexJS_of_some hfi] at h
          simp only [Int.toNat_natCast] at h
          cases ham : arrayMove g.items (findIndexJS (fun i => i.id == aid) g.items)
              (findIndexJS (fun i => i.id == oid) g.items) with
          | none =>
            rw [ham] at h
            exact Option.noConfusion h
          | some newItems =>
            rw [ham] at h
            have hm : m' = gs.set gi { g with items := newItems } := by
              injection h with h2
              exact h2.symm
            exact Or.inr (Or.inl ⟨gi, g, newItems, hfi, hg, arrayMove_coe ham, hm⟩)
      · -- different owning groups: splice out of the source, splice into the target
        cases hsg : jsGet gs (findIndexJS (fun g => g.id == agid) gs) with
        | none =>
          rw [hsg] at h
          exact Option.noConfusion h
        | some src =>
          rw [hsg] at h
          obtain ⟨si, hfi, hsrc⟩ := jsGet_findIndexJS hsg
          rw [findIndexJS_of_some hfi] at h
          simp only [Int.toNat_natCast] at h
          cases hr : (jsSpliceRemove1 src.items
              (findIndexJS (fun i => i.id == aid) src.items)).1 with
          | none =>
            rw [hr] at h
            exact Option.noConfusion h
          | some x =>
            rw [hr] at h
            have hms := spliceRemove_coe hr
            set R := (jsSpliceRemove1 src.items
              (findIndexJS (fun i => i.id == aid) src.items)).2 with hR
            cases htg : jsGet (gs.set si { src with items := R })
                (findIndexJS (fun g => g.id == ogid)
                  (gs.set si { src with items := R })) with
            | none =>
              rw [htg] at h
              exact Option.noConfusion h
            | some tgt =>
              rw [htg] at h
              obtain ⟨ti, hti, htgt⟩ := jsGet_findIndexJS htg
              rw [findIndexJS_of_some hti] at h
              simp only [Int.toNat_natCast] at h
              set N := jsSpliceInsert tgt.items
                (findIndexJS (fun i => i.id == oid) tgt.items) x with hN
              injection h with h2
              have hcoe : (N : Multiset Item) = x ::ₘ (tgt.items : Multiset Item) := by
                rw [hN]
                exact spliceInsert_coe tgt.items _ x
              exact Or.inr (Or.inr ⟨ogid, rfl, si, src, x, R, ti, tgt, N,
                hfi, hsrc, hms, hti, htgt, hcoe, h2.symm⟩)
    · exact Or.inl (by injection h with h2; exact h2.symm)

theorem handleDragEnd_itemIds {gs m' : List Group} {ev : DragEvent}
    (h : handleDragEnd gs ev = some m') : itemIds m' = itemIds gs := by
  obtain ⟨aid, ak, ov⟩ := ev
  cases ov with
  | none =>
    simp only [handleDragEnd] at h
    injection h with h2
    rw [← h2]
  | some over =>
    cases ak with
    | other =>
      simp only [handleDragEnd] at h
      injection h with h2
      rw [← h2]
    | group =>
      simp only [handleDragEnd] at h
      split at h
      · split at h
        · split at h
          · injection h with h2
            rw [← h2]
          · exact itemIds_coe_eq (arrayMove_coe h)
        · injection h with h2
          rw [← h2]
      · injection h with h2
        rw [← h2]
    | item agid =>
      rcases handleDragEnd_item_shape h with hgs
        | ⟨gi, g, newItems, hfi, hg, hco, hm⟩
        | ⟨tid, _, si, src, x, rest, ti, tgt, newTgtItems,
           hfi, hsrc, hms, hti, htgt, hco, hm⟩
      · rw [hgs]
      · subst hm
        have e1 := itemIds_set hg { g with items := newItems }
        dsimp only at e1
        rw [idsM_eq_of_coe hco] at e1
        exact add_right_cancel e1
      · subst hm
        have e1 := itemIds_set hsrc { src with items := rest }
        dsimp only at e1
        rw [idsM_cons_of_coe hms, ← Multiset.singleton_add, ← add_assoc] at e1
        have e1' := add_right_cancel e1
        have e2 := itemIds_set htgt { tgt with items := newTgtItems }
        dsimp only at e2
        rw [idsM_cons_of_coe hco, ← Multiset.singleton_add, ← add_assoc, e1'] at e2
        exact add_right_cancel e2

/-- Replacing an element by one with the same value under `p` does not change
the first index found by `p`. -/
theorem findIdxN_set_id {gs : List Group} {i : Nat} {g : Group} {p : Group → Bool}
    {g' : Group} (hp : p g' = p g) (hi : gs[i]? = some g) :
    findIdxN p (gs.set i g') = findIdxN p gs := by
  induction gs generalizing i with
  | nil => simp at hi
  | cons a tl ih =>
    cases i with
    | zero =>
      simp only [List.getElem?_cons_zero, Option.some.injEq] at hi
      subst hi
      simp [findIdxN, hp]
    | succ j =>
      simp only [List.getElem?_cons_succ] at hi
      simp [findIdxN, ih hi]

/-- The element found by `findIdxN` satisfies the predicate; specialised to
an id-equality predicate together with a known lookup. -/
theorem findIdxN_id_eq {gs : List Group} {i : Nat} {g : Group} {gid : String}
    (hf : findIdxN (fun g2 => g2.id == gid) gs = some i)
    (hg : gs[i]? = some g) : g.id = gid := by
  obtain ⟨y, hy, hpy⟩ := findIdxN_found hf
  rw [hg] at hy
  injection hy with hy
  subst hy
  exact beq_iff_eq.mp hpy

/-- Forward evaluation of `moveItemToGroupEnd` when every lookup resolves:
the dragged item is removed from the source group and appended to the items
of the target group (looked up in the already-updated list). -/
theorem moveItemToGroupEnd_spec (gs : List Group) (aid sgid tgid : String)
    (si ai ti : Nat) (src : Group) (x : Item)
    (hsi : findIdxN (fun g => g.id == sgid) gs = some si)
    (hsrc : gs[si]? = some src)
    (hai : findIdxN (fun it => it.id == aid) src.items = some ai)
    (hx : src.items[ai]? = some x)
    (hti : findIdxN (fun g => g.id == tgid) gs = some ti) :
    ∃ tgt, (gs.set si { src with items := removeAt src.items ai })[ti]? = some tgt ∧
      moveItemToGroupEnd gs aid sgid tgid =
        some ((gs.set si { src with items := removeAt src.items ai }).set ti
          { tgt with items := tgt.items ++ [x] }) := by
  set gs1 := gs.set si { src with items := removeAt src.items ai } with hgs1
  have hti1 : findIdxN (fun g => g.id == tgid) gs1 = some ti := by
    rw [hgs1]
    exact (@findIdxN_set_id gs si src (fun g => g.id == tgid)
      { src with items := removeAt src.items ai } rfl hsrc).trans hti
  have hlt : ti < gs1.length := by
    have h1 := findIdxN_lt_length hti
    simp [hgs1]
    omega
  refine ⟨gs1[ti], List.getElem?_eq_getElem hlt, ?_⟩
  rw [moveItemToGroupEnd]
  simp only [findIndexJS_of_some hsi, jsGet_nat, hsrc, Int.toNat_natCast,
    findIndexJS_of_some hai, spliceRemove_nat hx, ← hgs1,
    findIndexJS_of_some hti1, List.getElem?_eq_getElem hlt]

/-- One application of the collapse toggle, read back per index. -/
theorem toggle_flip {gs : List Group} (gid : String) {i : Nat} {g : Group}
    (h : gs[i]? = some g) :
    (handleToggleCollapse gs gid)[i]? =
      some (if g.id == gid then { g with isCollapsed := !g.isCollapsed } else g) := by
  simp [handleToggleCollapse, List.getElem?_map, h]

theorem toggle_twice (gs : List Group) (gid : String) :
    handleToggleCollapse (handleToggleCollapse gs gid) gid = gs := by
  induction gs with
  | nil => rfl
  | cons a tl ih =>
    simp only [handleToggleCollapse, List.map_cons] at ih ⊢
    refine congrArg₂ List.cons ?_ ih
    by_cases ha : a.id == gid
    · simp [ha, Bool.not_not]
    · simp [ha]

theorem toggle_noop {gs : List Group} {gid : String}
    (h : ∀ g ∈ gs, g.id ≠ gid) : handleToggleCollapse gs gid = gs := by
  induction gs with
  | nil => rfl
  | cons a tl ih =>
    have ih' := ih (fun g hg => h g (List.mem_cons_of_mem a hg))
    rw [handleToggleCollapse] at ih' ⊢
    rw [List.map_cons, ih']
    have ha : (a.id == gid) = false :=
      beq_eq_false_iff_ne.mpr (h a (List.mem_cons_self a tl))
    rw [if_neg (by simp [ha])]

/-! ### Claim theorems -/

/-- C3 (amended): for every sequence of drag-end reorder/move operations in
which every operation completes (returns a new state rather than throwing),
the multiset of all item ids across the whole list is unchanged (no item is
lost, none is duplicated), and when every item belonged to exactly one group
before (the global id list has no duplicates), every item belongs to exactly
one group after each operation.  The completion hypothesis is necessary: a
cross-group move whose target-group id resolves to nothing splices the item
out of the shared source array and then throws, losing the item (see the
counterexample below). -/
theorem c3_conservation {gs m' : List Group} {evs : List DragEvent}
    (h : handleDragEnds gs evs = some m') :
    itemIds m' = itemIds gs ∧ ((itemIdList gs).Nodup → (itemIdList m').Nodup) := by
  have hids : itemIds m' = itemIds gs := by
    induction evs generalizing gs with
    | nil =>
      rw [handleDragEnds] at h
      injection h with h2
      rw [h2]
    | cons ev rest ih =>
      rw [handleDragEnds] at h
      cases h1 : handleDragEnd gs ev with
      | none =>
        rw [h1] at h
        exact Option.noConfusion h
      | some g2 =>
        rw [h1] at h
        exact (ih h).trans (handleDragEnd_itemIds h1)
  refine ⟨hids, fun hnd => ?_⟩
  have h2 : (itemIds m').Nodup := by
    rw [hids]
    exact Multiset.coe_nodup.mpr hnd
  exact Multiset.coe_nodup.mp h2

/-- Witness for C3: a two-event sequence (cross-group move, then within-group
move) on the two-group example model. -/
theorem c3_conservation_witness :
    itemIds resultC3 = itemIds modelC4 ∧
      ((itemIdList modelC4).Nodup → (itemIdList resultC3).Nodup) :=
  c3_conservation (show handleDragEnds modelC4 [evC4, evC3b] = some resultC3 by decide)

/-- C3 counterexample: conservation fails for a sequence containing an
operation that does not complete.  On the `heapC2` model, the cross-group
move `evC3x` (dragged item `b` of `g1`, target item `y` with stale owning
group `g-gone`) first splices `b` out of the source items array — an
in-place mutation of the array shared with the live state — and then throws
at `updatedGroups[-1].items` because the target-group lookup misses.  After
the call, the model read through the original state has lost item `b`: its
item-id multiset differs from the one before. -/
theorem c3_itemLoss_counterexample :
    readModel heapC2 refsC2 =
      some [⟨"g1", "G1", [⟨"a", "A"⟩, ⟨"b", "B"⟩], false⟩,
            ⟨"g2", "G2", [⟨"x", "X"⟩, ⟨"y", "Y"⟩], false⟩] ∧
    (handleDragEndH heapC2 refsC2 evC3x).2 = none ∧
    readModel (handleDragEndH heapC2 refsC2 evC3x).1 refsC2 =
      some [⟨"g1", "G1", [⟨"a", "A"⟩], false⟩,
            ⟨"g2", "G2", [⟨"x", "X"⟩, ⟨"y", "Y"⟩], false⟩] ∧
    itemIds [⟨"g1", "G1", [⟨"a", "A"⟩], false⟩,
             ⟨"g2", "G2", [⟨"x", "X"⟩, ⟨"y", "Y"⟩], false⟩] ≠
      itemIds [⟨"g1", "G1", [⟨"a", "A"⟩, ⟨"b", "B"⟩], false⟩,
               ⟨"g2", "G2", [⟨"x", "X"⟩, ⟨"y", "Y"⟩], false⟩] := by
  decide

/-- C9: `toggleCollapse` applied twice with the same id returns the original
model; toggling an id that names no group is a no-op; the group count is
unchanged; and pointwise, exactly the groups with the named id have their
collapsed flag flipped while every other group (and every item) is
unchanged. -/
theorem c9_toggleCollapse (gs : List Group) (gid : String) :
    handleToggleCollapse (handleToggleCollapse gs gid) gid = gs ∧
    ((∀ g ∈ gs, g.id ≠ gid) → handleToggleCollapse gs gid = gs) ∧
    (handleToggleCollapse gs gid).length = gs.length ∧
    ∀ (i : Nat) (g : Group), gs[i]? = some g →
      (handleToggleCollapse gs gid)[i]? =
        some (if g.id == gid then { g with isCollapsed := !g.isCollapsed } else g) := by
  refine ⟨toggle_twice gs gid, toggle_noop, by simp [handleToggleCollapse], ?_⟩
  intro i g hg
  exact toggle_flip gid hg

/-- Witness for C9: double toggle of `group-1` restores the seed model, and
toggling the nonexistent id `group-9` is a no-op. -/
theorem c9_toggleCollapse_witness :
    handleToggleCollapse (handleToggleCollapse seedGroups "group-1") "group-1" =
      seedGroups ∧
    handleToggleCollapse seedGroups "group-9" = seedGroups :=
  ⟨(c9_toggleCollapse seedGroups "group-1").1,
   (c9_toggleCollapse seedGroups "group-9").2.1 (by decide)⟩

/-- C10: a completed drag-end whose dragged element is an item leaves the
group skeleton unchanged — same group count, order, ids, titles and collapsed
flags — and every group whose id is neither the dragged item's source group
nor the resolved target group keeps its items unchanged. -/
theorem c10_itemDrag_frame {gs m' : List Group} {ev : DragEvent} {agid : String}
    (hk : ev.activeKind = .item agid)
    (h : handleDragEnd gs ev = some m') :
    m'.map skel = gs.map skel ∧
    ∀ (i : Nat) (g : Group), gs[i]? = some g → g.id ≠ agid →
      (∀ ov tid, ev.over = some ov → itemOverTargetId ov = some tid → g.id ≠ tid) →
      m'[i]? = some g := by
  obtain ⟨aid, ak, ov?⟩ := ev
  have hk' : ak = .item agid := hk
  subst hk'
  cases ov? with
  | none =>
    simp only [handleDragEnd] at h
    injection h with h2
    subst h2
    exact ⟨rfl, fun i g hg _ _ => hg⟩
  | some ov =>
    rcases handleDragEnd_item_shape h with hgs
      | ⟨gi, g0, newItems, hfi, hg0, hco, hm⟩
      | ⟨tid, htid, si, src, x, rest, ti, tgt, newTgtItems,
         hfi, hsrc, hms, hti, htgt, hco, hm⟩
    · subst hgs
      exact ⟨rfl, fun i g hg _ _ => hg⟩
    · subst hm
      refine ⟨map_skel_set hg0 newItems, ?_⟩
      intro i g hg hgne _
      have hid := findIdxN_id_eq hfi hg0
      have hne : gi ≠ i := by
        intro he
        subst he
        rw [hg] at hg0
        injection hg0 with h3
        subst h3
        exact hgne hid
      rw [List.getElem?_set_ne hne]
      exact hg
    · subst hm
      have hsid := findIdxN_id_eq hfi hsrc
      have httid := findIdxN_id_eq hti htgt
      refine ⟨(map_skel_set htgt newTgtItems).trans (map_skel_set hsrc rest), ?_⟩
      intro i g hg hgne huntouched
      have hgt : g.id ≠ tid := huntouched ov tid rfl htid
      have hnsi : si ≠ i := by
        intro he
        subst he
        rw [hg] at hsrc
        injection hsrc with h3
        subst h3
        exact hgne hsid
      have hg1 : (gs.set si { src with items := rest })[i]? = some g := by
        rw [List.getElem?_set_ne hnsi]
        exact hg
      have hnti : ti ≠ i := by
        intro he
        subst he
        rw [hg1] at htgt
        injection htgt with h3
        subst h3
        exact hgt httid
      rw [List.getElem?_set_ne hnti]
      exact hg1

/-- Witness for C10: the cross-group example move preserves the group
skeleton. -/
theorem c10_itemDrag_frame_witness :
    resultC4.map skel = modelC4.map skel :=
  (c10_itemDrag_frame rfl
    (show handleDragEnd modelC4 evC4 = some resultC4 by decide)).1

/-- C1 (amended): a drop whose invalidity is visible in the event itself —
no drop target, an unrecognised dragged or hovered element type, an item
dropped onto itself, or a group drag whose target metadata yields no (or an
empty) owning-group id — is a silent no-op.  Lookup misses of a present id
against the model are not handled this way (see the counterexample). -/
theorem c1_noop_detectable (gs : List Group) (ev : DragEvent)
    (h : ev.over = none ∨
      ∃ ov, ev.over = some ov ∧
        (ev.activeKind = .other ∨
         (ev.activeKind = .group ∧
           (ev.activeId = ov.id ∨ resolvedOverGroupId ov = none ∨
            resolvedOverGroupId ov = some "")) ∨
         (∃ gid, ev.activeKind = .item gid ∧
           (ov.kind = .other ∨ ∃ g2, ov.kind = .item g2 ∧ ev.activeId = ov.id)))) :
    handleDragEnd gs ev = some gs := by
  obtain ⟨aid, ak, ov?⟩ := ev
  rcases h with hnone | ⟨ov, hov, hcases⟩
  · have hn : ov? = none := hnone
    subst hn
    rfl
  · have hov' : ov? = some ov := hov
    subst hov'
    obtain ⟨oid, okind⟩ := ov
    rcases hcases with hother | ⟨hgrp, hsub⟩ | ⟨gid, hitem, hsub⟩
    · have hak : ak = .other := hother
      subst hak
      rfl
    · have hak : ak = .group := hgrp
      subst hak
      rcases hsub with heq | hres | hres
      · have he : aid = oid := heq
        subst he
        simp [handleDragEnd]
      · cases okind with
        | other => simp [handleDragEnd, resolvedOverGroupId]
        | group => simp [resolvedOverGroupId] at hres
        | item g2 => simp [resolvedOverGroupId] at hres
        | empty g2 => simp [resolvedOverGroupId] at hres
      · cases okind with
        | other => simp [resolvedOverGroupId] at hres
        | group =>
          have he : oid = "" := by simpa [resolvedOverGroupId] using hres
          subst he
          simp [handleDragEnd, resolvedOverGroupId]
        | item g2 =>
          have he : g2 = "" := by simpa [resolvedOverGroupId] using hres
          subst he
          simp [handleDragEnd, resolvedOverGroupId]
        | empty g2 =>
          have he : g2 = "" := by simpa [resolvedOverGroupId] using hres
          subst he
          simp [handleDragEnd, resolvedOverGroupId]
    · have hak : ak = .item gid := hitem
      subst hak
      rcases hsub with hother | ⟨g2, hkind, heq⟩
      · have hk : okind = .other := hother
        subst hk
        rfl
      · have hk : okind = .item g2 := hkind
        subst hk
        have he : aid = oid := heq
        subst he
        simp [handleDragEnd]

/-- Witness for C1 (amended) at a concrete metadata-invalid drop: a group
drag whose hovered element carries no recognisable payload. -/
theorem c1_noop_detectable_witness :
    handleDragEnd modelC1 ⟨"g1", .group, some ⟨"mystery", .other⟩⟩ = some modelC1 :=
  c1_noop_detectable modelC1 ⟨"g1", .group, some ⟨"mystery", .other⟩⟩
    (Or.inr ⟨⟨"mystery", .other⟩, rfl, Or.inr (Or.inl ⟨rfl, Or.inr (Or.inl rfl)⟩)⟩)

/-- C1 counterexample: the over id `item-99` resolves to nothing in `modelC1`
(neither as a group id nor as an item id), yet the drop is not a no-op — the
same-group item path runs `arrayMove` with new index `-1` and reorders the
group's items.  With an unresolvable source-group id the handler even throws
(modelled `none`) instead of returning the model. -/
theorem c1_invalidId_counterexample :
    (∀ g ∈ modelC1, g.id ≠ "item-99" ∧ ∀ it ∈ g.items, it.id ≠ "item-99") ∧
    handleDragEnd modelC1 evC1 ≠ some modelC1 ∧
    handleDragEnd modelC1 evC1throw = none := by decide

/-- C2 (code bug): the heap-level run of the failing input shows the handler
mutating its input.  `[...groups]` is a shallow copy, so the `splice` calls
mutate the item arrays shared with the input model: after the call the input
state (the original group references) reads back with item `b` removed from
`g1` and inserted into `g2`, although the handler returned normally. -/
theorem c2_mutates_input :
    readModel (handleDragEndH heapC2 refsC2 evC2).1 refsC2 ≠ readModel heapC2 refsC2 ∧
    (handleDragEndH heapC2 refsC2 evC2).2 = some refsC2 ∧
    readModel (handleDragEndH heapC2 refsC2 evC2).1 refsC2 =
      some [⟨"g1", "G1", [⟨"a", "A"⟩], false⟩,
            ⟨"g2", "G2", [⟨"x", "X"⟩, ⟨"b", "B"⟩, ⟨"y", "Y"⟩], false⟩] := by
  decide

/-- C8 (amended): while dragging an item and hovering an item, the computed
indicator's target group is the hovered item's owning group, but its position
is one less than the numeric suffix of the hovered item's id (`item-N` gives
`N - 1`), not the hovered item's index in its group; a hovered id without an
`item-<digits>` part leaves the previous indicator unchanged. -/
theorem c8_indicator_amended (prev : Option DropIndicator) (gs : List Group)
    (aid agid oid ogid : String) (gi : Nat) (g : Group) (n : Nat)
    (hg : gs[gi]? = some g) (hgid : g.id = ogid)
    (hmem : oid ∈ g.items.map Item.id)
    (hn : getItemNumber oid = some n) :
    handleDragMove prev ⟨aid, .item agid, some ⟨oid, .item ogid⟩⟩ =
      some ⟨g.id, some ((n : Int) - 1)⟩ := by
  simp only [handleDragMove, hn, hgid]

/-- Witness for C8 (amended): hovering `item-4` of `group-2` in the seed
model yields position `3`. -/
theorem c8_indicator_amended_witness :
    handleDragMove none evC8 = some ⟨"group-2", some 3⟩ := by
  exact c8_indicator_amended none seedGroups "item-1" "group-1" "item-4" "group-2"
    1 seedG2 4 (by decide) (by decide) (by decide) (by decide)

/-- C8 counterexample: on the seed model, while dragging `item-1`, hovering
`item-4` — the item at index 0 of `group-2` — computes indicator position 3
(derived from the id suffix), not the hovered item's index 0. -/
theorem c8_indicator_counterexample :
    seedGroups[1]? = some seedG2 ∧ seedG2.id = "group-2" ∧
    findIdxN (fun it => it.id == "item-4") seedG2.items = some 0 ∧
    handleDragMove none evC8 = some ⟨"group-2", some 3⟩ ∧
    handleDragMove none evC8 ≠ some ⟨"group-2", some 0⟩ := by
  decide

/-- C5: dropping an item onto a distinct item of the same group applies
array-move semantics on that group's items only — remove at the old index
and insert at the new index computed against the sequence with the element
removed — leaving all other groups untouched. -/
theorem c5_withinGroupMove (gs : List Group) (aid oid gid : String)
    (gi oi ni : Nat) (g : Group) (x : Item)
    (hids : aid ≠ oid)
    (hgi : findIdxN (fun g2 => g2.id == gid) gs = some gi)
    (hg : gs[gi]? = some g)
    (hoi : findIdxN (fun it => it.id == aid) g.items = some oi)
    (hx : g.items[oi]? = some x)
    (hni : findIdxN (fun it => it.id == oid) g.items = some ni) :
    handleDragEnd gs ⟨aid, .item gid, some ⟨oid, .item gid⟩⟩ =
      some (gs.set gi { g with items := insertAt (removeAt g.items oi) ni x }) := by
  simp only [handleDragEnd]
  split
  · split
    · simp only [findIndexJS_of_some hgi, jsGet_nat, hg, Int.toNat_natCast,
        findIndexJS_of_some hoi, findIndexJS_of_some hni,
        arrayMove_nat hx (findIdxN_lt_length hni)]
    · next hcond => exact absurd (beq_self_eq_true gid) hcond
  · next hcond => exact absurd hids (by simpa using hcond)

/-- Witness for C5 at the spec example: `[A,B,C,D]`, moving `D` onto `B`
yields `[A,D,B,C]`. -/
theorem c5_withinGroupMove_witness :
    handleDragEnd modelC5 evC5 = some resultC5 := by
  have h := c5_withinGroupMove modelC5 "d" "b" "g1" 0 3 1
    ⟨"g1", "G1", [⟨"a", "A"⟩, ⟨"b", "B"⟩, ⟨"c", "C"⟩, ⟨"d", "D"⟩], false⟩
    ⟨"d", "D"⟩ (by decide) (by decide) (by decide) (by decide) (by decide) (by decide)
  rw [show evC5 = ⟨"d", ActiveKind.item "g1", some ⟨"b", OverKind.item "g1"⟩⟩ from rfl]
  rw [h]
  decide

/-- C6: dropping a dragged group onto a target that resolves to a different
group removes the dragged group from its position and reinserts it at the
resolved target's index with array-move semantics (the insertion index is
applied after removal of the source, not a naive insert-before). -/
theorem c6_groupMove (gs : List Group) (aid oid : String) (okind : OverKind)
    (ogid : String) (i j : Nat) (g : Group)
    (hne : aid ≠ oid)
    (hres : resolvedOverGroupId ⟨oid, okind⟩ = some ogid)
    (hogid : ogid ≠ "")
    (hi : findIdxN (fun g2 => g2.id == aid) gs = some i)
    (hg : gs[i]? = some g)
    (hj : findIdxN (fun g2 => g2.id == ogid) gs = some j) :
    handleDragEnd gs ⟨aid, .group, some ⟨oid, okind⟩⟩ =
      some (insertAt (removeAt gs i) j g) := by
  cases okind with
  | other => simp [resolvedOverGroupId] at hres
  | group =>
    have he : oid = ogid := by simpa [resolvedOverGroupId] using hres
    subst he
    simp only [handleDragEnd, resolvedOverGroupId]
    rw [if_pos (bne_iff_ne.mpr hne), if_neg hogid]
    simp only [findIndexJS_of_some hi, findIndexJS_of_some hj,
      arrayMove_nat hg (findIdxN_lt_length hj)]
  | item g2 =>
    have he : g2 = ogid := by simpa [resolvedOverGroupId] using hres
    subst he
    simp only [handleDragEnd, resolvedOverGroupId]
    rw [if_pos (bne_iff_ne.mpr hne), if_neg hogid]
    simp only [findIndexJS_of_some hi, findIndexJS_of_some hj,
      arrayMove_nat hg (findIdxN_lt_length hj)]
  | empty g2 =>
    have he : g2 = ogid := by simpa [resolvedOverGroupId] using hres
    subst he
    simp only [handleDragEnd, resolvedOverGroupId]
    rw [if_pos (bne_iff_ne.mpr hne), if_neg hogid]
    simp only [findIndexJS_of_some hi, findIndexJS_of_some hj,
      arrayMove_nat hg (findIdxN_lt_length hj)]

/-- Witness for C6 at the spec example: dragging `group-3` onto the header of
`group-1` in the seed model yields `[group-3, group-1, group-2]`. -/
theorem c6_groupMove_witness :
    handleDragEnd seedGroups evC6 = some resultC6 := by
  have h := c6_groupMove seedGroups "group-3" "group-1" OverKind.group "group-1"
    2 0 seedG3 (by decide) (by decide) (by decide) (by decide) (by decide) (by decide)
  rw [show evC6 = ⟨"group-3", ActiveKind.group, some ⟨"group-1", OverKind.group⟩⟩ from rfl]
  rw [h]
  decide

/-- C4: dropping a dragged item onto a target item that lives in a different
group removes the item from the source group's sequence and inserts it into
the target group's sequence at the index currently occupied by the target
item (insertion, not replacement — the target item and everything after it
shift down by one). -/
theorem c4_crossGroupInsert (gs : List Group) (aid oid sgid tgid : String)
    (si ai ti k : Nat) (src tgt : Group) (x : Item)
    (hids : aid ≠ oid) (hgids : sgid ≠ tgid)
    (hsi : findIdxN (fun g2 => g2.id == sgid) gs = some si)
    (hsrc : gs[si]? = some src)
    (hai : findIdxN (fun it => it.id == aid) src.items = some ai)
    (hx : src.items[ai]? = some x)
    (hti : findIdxN (fun g2 => g2.id == tgid) gs = some ti)
    (htgt : gs[ti]? = some tgt)
    (hk : findIdxN (fun it => it.id == oid) tgt.items = some k) :
    handleDragEnd gs ⟨aid, .item sgid, some ⟨oid, .item tgid⟩⟩ =
      some ((gs.set si { src with items := removeAt src.items ai }).set ti
        { tgt with items := insertAt tgt.items k x }) := by
  have hsid : src.id = sgid := findIdxN_id_eq hsi hsrc
  have htid : tgt.id = tgid := findIdxN_id_eq hti htgt
  have hsit : si ≠ ti := by
    intro he
    subst he
    rw [hsrc] at htgt
    injection htgt with h3
    subst h3
    exact hgids (hsid ▸ htid ▸ rfl)
  have hti1 : findIdxN (fun g2 => g2.id == tgid)
      (gs.set si { src with items := removeAt src.items ai }) = some ti :=
    (@findIdxN_set_id gs si src (fun g2 => g2.id == tgid)
      { src with items := removeAt src.items ai } rfl hsrc).trans hti
  have hgt1 : (gs.set si { src with items := removeAt src.items ai })[ti]? = some tgt := by
    rw [List.getElem?_set_ne hsit]
    exact htgt
  simp only [handleDragEnd]
  split
  · split
    · next hcond => exact absurd (by simpa using hcond) hgids
    · simp only [findIndexJS_of_some hsi, jsGet_nat, hsrc, Int.toNat_natCast,
        findIndexJS_of_some hai, spliceRemove_nat hx,
        findIndexJS_of_some hti1, hgt1,
        findIndexJS_of_some hk,
        spliceInsert_nat (le_of_lt (findIdxN_lt_length hk)) x]
  · next hcond => exact absurd hids (by simpa using hcond)

/-- Witness for C4 at the spec example: source `[A,B]`, target `[X,Y]`,
moving `B` onto `Y` yields source `[A]` and target `[X,B,Y]`. -/
theorem c4_crossGroupInsert_witness :
    handleDragEnd modelC4 evC4 = some resultC4 := by
  have h := c4_crossGroupInsert modelC4 "b" "y" "gs" "gt" 0 1 1 1
    ⟨"gs", "Source", [⟨"a", "A"⟩, ⟨"b", "B"⟩], false⟩
    ⟨"gt", "Target", [⟨"x", "X"⟩, ⟨"y", "Y"⟩], false⟩
    ⟨"b", "B"⟩ (by decide) (by decide) (by decide) (by decide) (by decide)
    (by decide) (by decide) (by decide) (by decide)
  rw [show evC4 = ⟨"b", ActiveKind.item "gs", some ⟨"y", OverKind.item "gt"⟩⟩ from rfl]
  rw [h]
  decide

/-- C7: dropping a dragged item onto an empty-slot placeholder or onto a
group header removes the item from its source group's items and appends it to
the end of the target group's items (the slot's owning group, respectively
the header's group; the target is looked up after the removal, so a drop on
the dragged item's own group appends to the shortened list). -/
theorem c7_dropOnSlotOrHeader (gs : List Group) (aid sgid tgid : String) (ov : Over)
    (hkind : ov.kind = .empty tgid ∨ (ov.kind = .group ∧ ov.id = tgid))
    (si ai ti : Nat) (src : Group) (x : Item)
    (hsi : findIdxN (fun g2 => g2.id == sgid) gs = some si)
    (hsrc : gs[si]? = some src)
    (hai : findIdxN (fun it => it.id == aid) src.items = some ai)
    (hx : src.items[ai]? = some x)
    (hti : findIdxN (fun g2 => g2.id == tgid) gs = some ti) :
    ∃ tgt, (gs.set si { src with items := removeAt src.items ai })[ti]? = some tgt ∧
      handleDragEnd gs ⟨aid, .item sgid, some ov⟩ =
        some ((gs.set si { src with items := removeAt src.items ai }).set ti
          { tgt with items := tgt.items ++ [x] }) := by
  obtain ⟨oid, okind⟩ := ov
  obtain ⟨tgt, h1, h2⟩ :=
    moveItemToGroupEnd_spec gs aid sgid tgid si ai ti src x hsi hsrc hai hx hti
  rcases hkind with hk | ⟨hk, hid⟩
  · have hkk : okind = .empty tgid := hk
    subst hkk
    refine ⟨tgt, h1, ?_⟩
    simp only [handleDragEnd]
    exact h2
  · have hkk : okind = .group := hk
    subst hkk
    have hoid : oid = tgid := hid
    subst hoid
    refine ⟨tgt, h1, ?_⟩
    simp only [handleDragEnd]
    exact h2

/-- Witness for C7 at the spec example: moving item `A` from a non-empty
source group onto the empty-slot of an empty target group yields source
without `A` and target `[A]`. -/
theorem c7_dropOnSlotOrHeader_witness :
    handleDragEnd modelC7 evC7 = some resultC7 := by
  obtain ⟨tgt, h1, h2⟩ := c7_dropOnSlotOrHeader modelC7 "a" "gs" "gt"
    ⟨"empty-gt", OverKind.empty "gt"⟩ (Or.inl rfl) 0 0 1
    ⟨"gs", "Source", [⟨"a", "A"⟩, ⟨"b", "B"⟩], false⟩
    ⟨"a", "A"⟩ (by decide) (by decide) (by decide) (by decide) (by decide)
  have htgt : tgt = ⟨"gt", "Target", [], false⟩ := by
    have h1' : (some (⟨"gt", "Target", [], false⟩ : Group) : Option Group) = some tgt := h1
    injection h1' with h3
    exact h3.symm
  subst htgt
  rw [show evC7 = ⟨"a", ActiveKind.item "gs", some ⟨"empty-gt", OverKind.empty "gt"⟩⟩ from rfl]
  rw [h2]
  decide

end DnD
